import Mathlib

/-!
Verification of the Time Trials report-generation core of the
hpde-analytics-cli repository, as implemented in
src/hpde_analytics_cli/utils/report_generator.py.

The embedding models Python dict fields with three states (absent, None,
string), Python dicts as insertion-ordered association lists, Python sets of
day names as finite sets, and the possibility of a raised exception as an
Except value.  String operations (lower, strip, substring test, ordering)
are implemented over character lists so that every definition evaluates.
-/

/-- Does the haystack start with the needle? One offset of the Python
substring operator. -/
def startsList : List Char → List Char → Bool
  | _, [] => true
  | [], _ :: _ => false
  | a :: as, b :: bs => a == b && startsList as bs

/-- Substring containment on character lists; models the Python operator
`needle in hay` for strings. -/
def containsList : List Char → List Char → Bool
  | [], needle => needle.isEmpty
  | a :: rest, needle => startsList (a :: rest) needle || containsList rest needle

/-- Models Python `needle in hay` on strings. -/
def subStr (needle hay : String) : Bool :=
  containsList hay.data needle.data

/-- Models Python `s.lower()` (ASCII case folding, as in the data involved). -/
def lowerS (s : String) : String :=
  ⟨s.data.map Char.toLower⟩

/-- Models Python `s.strip()`: removes leading and trailing whitespace. -/
def trimS (s : String) : String :=
  ⟨(((s.data.dropWhile Char.isWhitespace).reverse).dropWhile Char.isWhitespace).reverse⟩

/-- Models Python `s.startswith(p)`. -/
def startsS (s p : String) : Bool :=
  startsList s.data p.data

/-- String concatenation on the underlying character lists. -/
def appS (a b : String) : String :=
  ⟨a.data ++ b.data⟩

/-- Lexicographic order (by code point) on character lists; models Python
string comparison. -/
def lexLe : List Char → List Char → Bool
  | [], _ => true
  | _ :: _, [] => false
  | a :: as, b :: bs => if a < b then true else if b < a then false else lexLe as bs

/-- A field of an input row, as stored in a Python dict: the key can be
absent, present with value None, or present with a string value. -/
inductive PyField where
  | absent
  | null
  | str (s : String)
deriving DecidableEq

/-- Models Python `row.get(key)` (default None): the value or None. -/
def PyField.get : PyField → Option String
  | .absent => none
  | .null => none
  | .str s => some s

/-- Models Python `row.get(key, dflt)` with a string default: an absent key
yields the default, a None value stays None. -/
def PyField.getD : PyField → String → Option String
  | .absent, dflt => some dflt
  | .null, _ => none
  | .str s, _ => some s

/-- Truthiness of a Python value that is None or a string. -/
def pyTruthy : Option String → Bool
  | none => false
  | some s => !(s == "")

/-- Models Python `(x or "")` for x either None or a string. -/
def pyOrEmpty : Option String → String
  | none => ""
  | some s => s

/-- An entry-list row (one ParticipationRecord), fields as read from the
upstream CSV/JSON: each may be absent, null, or a string. -/
structure Entry where
  firstName : PyField := .absent
  lastName : PyField := .absent
  segment : PyField := .absent
  group : PyField := .absent
  «class» : PyField := .absent
  make : PyField := .absent
  model : PyField := .absent
  year : PyField := .absent
  vehicleNumber : PyField := .absent
  color : PyField := .absent
  sponsor : PyField := .absent
deriving DecidableEq

/-- An attendee roster row. -/
structure Attendee where
  firstName : PyField := .absent
  lastName : PyField := .absent
  email : PyField := .absent
  memberId : PyField := .absent
  status : PyField := .absent
deriving DecidableEq

/-- An assignment-feed row. -/
structure Assignment where
  firstName : PyField := .absent
  lastName : PyField := .absent
  group : PyField := .absent
  tireBrand : PyField := .absent
deriving DecidableEq

/-- The aggregated driver record built by the fold, mirroring the dict made
by the source's record initializer.  The email, memberId and status slots can
hold Python None after enrichment (when the attendee field was null), so they
are Option-valued; every other slot only ever holds a string. -/
structure Driver where
  firstName : String := ""
  lastName : String := ""
  «class» : String := ""
  make : String := ""
  model : String := ""
  year : String := ""
  vehicleNumber : String := ""
  color : String := ""
  sponsor : String := ""
  tireBrand : String := ""
  is_tt : Bool := false
  is_instructor : Bool := false
  is_advanced_hpde : Bool := false
  days_tt : Finset String := ∅
  days_instructor : Finset String := ∅
  days_advanced : Finset String := ∅
  email : Option String := some ""
  memberId : Option String := some ""
  status : Option String := some ""
deriving DecidableEq

/-- Embeds `_get_driver_key`: lowercase trimmed first name, a bar, lowercase
trimmed last name, with None names read as empty strings. -/
def _get_driver_key (firstName lastName : PyField) : String :=
  appS (appS (lowerS (trimS (pyOrEmpty firstName.get))) "|")
    (lowerS (trimS (pyOrEmpty lastName.get)))

/-- The driver key of an entry-list row. -/
def entryKey (e : Entry) : String :=
  _get_driver_key e.firstName e.lastName

/-- Embeds `_parse_segment`: extracts Friday/Saturday/Sunday from the segment
label, checked in that order; empty or None segment gives no day. -/
def _parse_segment (segment : Option String) : Option String :=
  match segment with
  | none => none
  | some s =>
    if s == "" then none
    else
      let sl := lowerS s
      if subStr "friday" sl then some "Friday"
      else if subStr "saturday" sl then some "Saturday"
      else if subStr "sunday" sl then some "Sunday"
      else none

/-- Embeds `_is_time_trials`: group contains "time trials" case-insensitively,
with falsy group giving false. -/
def _is_time_trials (group : Option String) : Bool :=
  match group with
  | none => false
  | some g => if g == "" then false else subStr "time trials" (lowerS g)

/-- Embeds `_is_instructor`. -/
def _is_instructor (group : Option String) : Bool :=
  match group with
  | none => false
  | some g => if g == "" then false else subStr "instructing" (lowerS g)

/-- Embeds `_is_advanced_hpde`. -/
def _is_advanced_hpde (group : Option String) : Bool :=
  match group with
  | none => false
  | some g => if g == "" then false else subStr "advanced hpde" (lowerS g)

/-- Embeds `_is_worker_only`: an empty or None segment counts as worker-only,
otherwise the segment is tested for the substring "workers". -/
def _is_worker_only (segment : Option String) : Bool :=
  match segment with
  | none => true
  | some s => if s == "" then true else subStr "workers" (lowerS s)

/-- Embeds `_get_participation_type`. -/
def _get_participation_type (is_instructor is_ayce : Bool) : String :=
  if is_instructor && is_ayce then "TT + Instructor + AYCE"
  else if is_instructor then "TT + Instructor"
  else if is_ayce then "TT + AYCE"
  else "TT Only"

/-- Embeds `_get_day_count`: buckets a day count for the pivot column. -/
def _get_day_count (day_count : Nat) : String :=
  if day_count == 1 then "1 Day"
  else if day_count == 2 then "2 Days"
  else if day_count ≥ 3 then "3 Days"
  else ""

/-- Embeds `_format_days_string`: the display string and the count of
Friday/Saturday/Sunday memberships in the time-trials day set. -/
def _format_days_string (days_tt : Finset String) : String × Nat :=
  let has_fri : Bool := decide ("Friday" ∈ days_tt)
  let has_sat : Bool := decide ("Saturday" ∈ days_tt)
  let has_sun : Bool := decide ("Sunday" ∈ days_tt)
  let day_count := has_fri.toNat + has_sat.toNat + has_sun.toNat
  if day_count == 3 then ("All 3", day_count)
  else if day_count == 2 then
    if has_fri && has_sat then ("Fri/Sat", day_count)
    else if has_fri && has_sun then ("Fri/Sun", day_count)
    else ("Sat/Sun", day_count)
  else if day_count == 1 then
    if has_fri then ("Friday", day_count)
    else if has_sat then ("Saturday", day_count)
    else ("Sunday", day_count)
  else ("", day_count)

/-- Joins a list of strings with single spaces; models `" ".join(parts)`. -/
def joinSp : List String → String
  | [] => ""
  | [x] => x
  | x :: y :: rest => appS (appS x " ") (joinSp (y :: rest))

/-- Embeds `_format_vehicle_string`: year, make, model, keeping only truthy
parts, joined by spaces. -/
def _format_vehicle_string (d : Driver) : String :=
  joinSp (([d.year, d.make, d.model].filter (fun p => !(p == ""))))

/-- Embeds `_get_class_group`: prefix-based bucketing of the class label. -/
def _get_class_group (tt_class : String) : String :=
  if tt_class == "" then "Other"
  else
    let class_lower := trimS (lowerS tt_class)
    if startsS class_lower "max" then "Max"
    else if startsS class_lower "sport" then "Sport"
    else if startsS class_lower "tuner" then "Tuner"
    else if startsS class_lower "unlimited" then "Unlimited"
    else "Other"

/-- One emitted report row: the 17 data cells written by the row writer, in
column order. -/
structure Row where
  firstName : String
  lastName : String
  email : Option String
  memberId : Option String
  «class» : String
  classGroup : String
  vehicleNumber : String
  vehicle : String
  color : String
  tire : String
  sponsor : String
  days : String
  dayCount : String
  instructor : String
  ayce : String
  participationType : String
  status : Option String
deriving DecidableEq

/-- Embeds the data part of `_write_driver_row`: the derived values and the
17-cell row built from one driver record. -/
def _write_driver_row (d : Driver) : Row :=
  let fd := _format_days_string d.days_tt
  let is_ayce := d.is_tt && d.is_advanced_hpde
  { firstName := d.firstName
    lastName := d.lastName
    email := d.email
    memberId := d.memberId
    «class» := d.«class»
    classGroup := _get_class_group d.«class»
    vehicleNumber := d.vehicleNumber
    vehicle := _format_vehicle_string d
    color := d.color
    tire := d.tireBrand
    sponsor := d.sponsor
    days := fd.1
    dayCount := _get_day_count fd.2
    instructor := if d.is_instructor then "Yes" else "No"
    ayce := if is_ayce then "Yes" else "No"
    participationType := _get_participation_type d.is_instructor is_ayce
    status := d.status }

/-- Lookup in an insertion-ordered association list; models a Python dict
read. -/
def dictGet {α : Type} : List (String × α) → String → Option α
  | [], _ => none
  | (k', v) :: t, k => if k' = k then some v else dictGet t k

/-- Write to an insertion-ordered association list; models a Python dict
assignment: an existing key keeps its position, a new key is appended. -/
def dictSet {α : Type} : List (String × α) → String → α → List (String × α)
  | [], k, v => [(k, v)]
  | (k', v') :: t, k, v => if k' = k then (k, v) :: t else (k', v') :: dictSet t k v

/-- Embeds the loop of `_build_tire_lookup`: keep the tire brand of every
assignment row with a usable key, a time-trials group and a truthy tire
brand; a later qualifying row overwrites an earlier one. -/
def _build_tire_lookup (assignments : List Assignment) : List (String × String) :=
  assignments.foldl
    (fun lk a =>
      let key := _get_driver_key a.firstName a.lastName
      let group := a.group.getD ""
      let tire := a.tireBrand.getD ""
      if !(key == "") && !(key == "|") && _is_time_trials group && pyTruthy tire then
        dictSet lk key (pyOrEmpty tire)
      else lk)
    []

/-- Embeds `_build_attendee_lookup`: index attendee rows by driver key,
skipping rows with an unusable key; a later row overwrites an earlier one. -/
def _build_attendee_lookup (attendees : List Attendee) : List (String × Attendee) :=
  attendees.foldl
    (fun lk att =>
      let key := _get_driver_key att.firstName att.lastName
      if !(key == "") && !(key == "|") then dictSet lk key att else lk)
    []

/-- Embeds `_initialize_driver_record`: seeds a fresh driver record from an
entry's stripped names and all-default remaining fields.  The Python code
calls .strip() on `entry.get(name, "")`, which raises AttributeError when the
field is present with value None; that exception is the error case here. -/
def _init_driver_record (e : Entry) : Except Unit Driver :=
  match e.firstName.getD "", e.lastName.getD "" with
  | some f, some l => .ok { firstName := trimS f, lastName := trimS l }
  | _, _ => .error ()

/-- Last-non-empty-wins update of one vehicle field; embeds the statement
pattern `if entry.get(f): driver[f] = entry.get(f, "")`. -/
def mergeField (old : String) (f : PyField) : String :=
  if pyTruthy f.get then pyOrEmpty (f.getD "") else old

/-- Adds a day to a day set when the day value is truthy; embeds
`if day: s.add(day)`. -/
def addDay (s : Finset String) (day : Option String) : Finset String :=
  match day with
  | none => s
  | some x => if x == "" then s else insert x s

/-- Embeds `_update_driver_with_tt_data`: marks the time-trials flag, adds the
day, and overwrites each vehicle field only when the incoming value is
truthy. -/
def _update_driver_with_tt_data (d : Driver) (e : Entry) (day : Option String) : Driver :=
  { d with
    is_tt := true
    days_tt := addDay d.days_tt day
    «class» := mergeField d.«class» e.«class»
    make := mergeField d.make e.make
    model := mergeField d.model e.model
    year := mergeField d.year e.year
    vehicleNumber := mergeField d.vehicleNumber e.vehicleNumber
    color := mergeField d.color e.color
    sponsor := mergeField d.sponsor e.sponsor }

/-- Embeds the instructor branch of `_process_entry`. -/
def updInstructor (d : Driver) (day : Option String) : Driver :=
  { d with is_instructor := true, days_instructor := addDay d.days_instructor day }

/-- Embeds the advanced-HPDE branch of `_process_entry`. -/
def updAdvanced (d : Driver) (day : Option String) : Driver :=
  { d with is_advanced_hpde := true, days_advanced := addDay d.days_advanced day }

/-- The three group-conditional updates applied by `_process_entry` to the
(found or freshly created) driver record. -/
def applyGroups (e : Entry) (d : Driver) : Driver :=
  let group := e.group.getD ""
  let day := _parse_segment (e.segment.getD "")
  let d1 := if _is_time_trials group then _update_driver_with_tt_data d e day else d
  let d2 := if _is_instructor group then updInstructor d1 day else d1
  if _is_advanced_hpde group then updAdvanced d2 day else d2

/-- The aggregated-participant map, keyed by driver key in insertion order. -/
abbrev DriversMap : Type := List (String × Driver)

/-- Embeds `_process_entry`: skip worker-only rows and rows with an unusable
key; otherwise find or create the driver record (creation can raise on a
null name) and apply the group updates. -/
def _process_entry (m : DriversMap) (e : Entry) : Except Unit DriversMap :=
  if _is_worker_only (e.segment.getD "") then .ok m
  else
    let key := entryKey e
    if key == "" || key == "|" then .ok m
    else
      match dictGet m key with
      | some d => .ok (dictSet m key (applyGroups e d))
      | none =>
        match _init_driver_record e with
        | .ok d => .ok (dictSet m key (applyGroups e d))
        | .error u => .error u

/-- Folds `_process_entry` over a list of entries starting from a given map;
the first raised exception aborts the fold, as in Python. -/
def processEntriesFrom (m : DriversMap) : List Entry → Except Unit DriversMap
  | [] => .ok m
  | e :: l =>
    match _process_entry m e with
    | .ok m' => processEntriesFrom m' l
    | .error u => .error u

/-- The entry-list aggregation loop of `generate_tt_report`, from the empty
map. -/
def processEntries (l : List Entry) : Except Unit DriversMap :=
  processEntriesFrom [] l

/-- Enrichment of one driver record from the two lookups, as performed by the
body of the loop in `_enrich_drivers_with_metadata`. -/
def enrichOne (attL : List (String × Attendee)) (tireL : List (String × String))
    (k : String) (d : Driver) : Driver :=
  let d1 :=
    match dictGet attL k with
    | some att =>
      { d with email := att.email.getD "", memberId := att.memberId.getD "",
               status := att.status.getD "" }
    | none => d
  match dictGet tireL k with
  | some t => { d1 with tireBrand := t }
  | none => d1

/-- Embeds `_enrich_drivers_with_metadata`: every driver record in the map is
enriched in place from the attendee and tire lookups. -/
def _enrich_drivers_with_metadata (m : DriversMap) (attL : List (String × Attendee))
    (tireL : List (String × String)) : DriversMap :=
  m.map (fun kd => (kd.1, enrichOne attL tireL kd.1 kd.2))

/-- The sort comparator of `generate_tt_report`: ascending by the pair of
lowercased last and first name, compared lexicographically as in Python. -/
def leDriver (a b : Driver) : Bool :=
  let la := (lowerS a.lastName).data
  let lb := (lowerS b.lastName).data
  if la = lb then lexLe (lowerS a.firstName).data (lowerS b.firstName).data
  else lexLe la lb

/-- The comparator on emitted rows induced by the driver comparator. -/
def rowLe (a b : Row) : Bool :=
  let la := (lowerS a.lastName).data
  let lb := (lowerS b.lastName).data
  if la = lb then lexLe (lowerS a.firstName).data (lowerS b.firstName).data
  else lexLe la lb

/-- The sort order used for the report, as a decidable relation. -/
def DriverLe (a b : Driver) : Prop := leDriver a b = true

instance : DecidableRel DriverLe := fun a b => decEq (leDriver a b) true

/-- Embeds the data pipeline of `generate_tt_report` (file and spreadsheet
I/O excluded): build both lookups, fold the entry list, filter to
time-trials participants, enrich, sort, and emit the rows together with the
driver count that the function returns. -/
def generate_tt_report (entrylist : List Entry) (attendees : List Attendee)
    (assignments : List Assignment) : Except Unit (List Row × Nat) :=
  let tire_lookup := _build_tire_lookup assignments
  let attendee_lookup := _build_attendee_lookup attendees
  match processEntries entrylist with
  | .error u => .error u
  | .ok drivers =>
    let tt_drivers := drivers.filter (fun kd => kd.2.is_tt)
    let enriched := _enrich_drivers_with_metadata tt_drivers attendee_lookup tire_lookup
    let sorted_drivers := List.insertionSort DriverLe (enriched.map Prod.snd)
    .ok (sorted_drivers.map _write_driver_row, sorted_drivers.length)

/-! ### Association-list dictionary lemmas -/

theorem dictGet_dictSet_self {α : Type} (m : List (String × α)) (k : String) (v : α) :
    dictGet (dictSet m k v) k = some v := by
  induction m with
  | nil => simp [dictSet, dictGet]
  | cons h t ih =>
    obtain ⟨k', v'⟩ := h
    by_cases hk : k' = k <;> simp [dictSet, dictGet, hk, ih]

theorem dictGet_dictSet_ne {α : Type} (m : List (String × α)) (k k' : String) (v : α)
    (h : k ≠ k') : dictGet (dictSet m k v) k' = dictGet m k' := by
  induction m with
  | nil => simp [dictSet, dictGet, h]
  | cons hd t ih =>
    obtain ⟨k₀, v₀⟩ := hd
    by_cases hk : k₀ = k
    · subst hk
      simp [dictSet, dictGet, h]
    · by_cases hk' : k₀ = k'
      · subst hk'
        simp [dictSet, dictGet, hk]
      · simp [dictSet, dictGet, hk, hk', ih]

theorem dictGet_dictSet_eq_some {α : Type} {m : List (String × α)} {k k' : String}
    {v v' : α} (h : dictGet (dictSet m k v) k' = some v') :
    (k' = k ∧ v' = v) ∨ dictGet m k' = some v' := by
  by_cases hk : k = k'
  · subst hk
    rw [dictGet_dictSet_self] at h
    exact Or.inl ⟨rfl, (Option.some.injEq _ _).mp h.symm⟩
  · rw [dictGet_dictSet_ne m k k' v hk] at h
    exact Or.inr h

theorem dictGet_map {α β : Type} (f : String → α → β) (m : List (String × α)) (k : String) :
    dictGet (m.map (fun kd => (kd.1, f kd.1 kd.2))) k = (dictGet m k).map (f k) := by
  induction m with
  | nil => simp [dictGet]
  | cons hd t ih =>
    obtain ⟨k₀, v₀⟩ := hd
    by_cases hk : k₀ = k <;> simp [dictGet, hk, ih]

/-! ### Lexicographic comparator lemmas -/

theorem lexLe_refl (l : List Char) : lexLe l l = true := by
  induction l with
  | nil => rfl
  | cons a as ih => simp [lexLe, lt_irrefl, ih]

theorem lexLe_total (l₁ l₂ : List Char) : lexLe l₁ l₂ = true ∨ lexLe l₂ l₁ = true := by
  induction l₁ generalizing l₂ with
  | nil => exact Or.inl rfl
  | cons a as ih =>
    cases l₂ with
    | nil => exact Or.inr rfl
    | cons b bs =>
      rcases lt_trichotomy a b with hab | hab | hab
      · left
        simp [lexLe, hab]
      · subst hab
        rcases ih bs with h | h
        · left
          simp [lexLe, lt_irrefl, h]
        · right
          simp [lexLe, lt_irrefl, h]
      · right
        simp [lexLe, hab]

theorem lexLe_trans {l₁ l₂ l₃ : List Char} (h₁ : lexLe l₁ l₂ = true)
    (h₂ : lexLe l₂ l₃ = true) : lexLe l₁ l₃ = true := by
  induction l₁ generalizing l₂ l₃ with
  | nil => rfl
  | cons a as ih =>
    cases l₂ with
    | nil => simp [lexLe] at h₁
    | cons b bs =>
      cases l₃ with
      | nil => simp [lexLe] at h₂
      | cons c cs =>
        rcases lt_trichotomy a b with hab | hab | hab
        · rcases lt_trichotomy b c with hbc | hbc | hbc
          · simp [lexLe, lt_trans hab hbc]
          · subst hbc
            simp [lexLe, hab]
          · exfalso
            simp [lexLe, asymm hbc, hbc] at h₂
        · subst hab
          simp only [lexLe, lt_irrefl, if_false] at h₁
          rcases lt_trichotomy a c with hac | hac | hac
          · simp [lexLe, hac]
          · subst hac
            simp only [lexLe, lt_irrefl, if_false] at h₂ ⊢
            exact ih h₁ h₂
          · exfalso
            simp [lexLe, asymm hac, hac] at h₂
        · exfalso
          simp [lexLe, asymm hab, hab] at h₁

theorem lexLe_antisymm {l₁ l₂ : List Char} (h₁ : lexLe l₁ l₂ = true)
    (h₂ : lexLe l₂ l₁ = true) : l₁ = l₂ := by
  induction l₁ generalizing l₂ with
  | nil =>
    cases l₂ with
    | nil => rfl
    | cons b bs => simp [lexLe] at h₂
  | cons a as ih =>
    cases l₂ with
    | nil => simp [lexLe] at h₁
    | cons b bs =>
      rcases lt_trichotomy a b with hab | hab | hab
      · simp [lexLe, hab, asymm hab] at h₂
      · subst hab
        simp only [lexLe, lt_irrefl, if_false] at h₁ h₂
        rw [ih h₁ h₂]
      · simp [lexLe, hab, asymm hab] at h₁

theorem pairLexLe_trans {la lb lc fa fb fc : List Char}
    (h₁ : (if la = lb then lexLe fa fb else lexLe la lb) = true)
    (h₂ : (if lb = lc then lexLe fb fc else lexLe lb lc) = true) :
    (if la = lc then lexLe fa fc else lexLe la lc) = true := by
  by_cases hab : la = lb
  · subst hab
    by_cases hbc : la = lc
    · subst hbc
      simp only [if_pos rfl] at h₁ h₂ ⊢
      exact lexLe_trans h₁ h₂
    · simp only [if_neg hbc] at h₂ ⊢
      exact h₂
  · by_cases hbc : lb = lc
    · subst hbc
      simp only [if_neg hab] at h₁ ⊢
      exact h₁
    · simp only [if_neg hab, if_neg hbc] at h₁ h₂
      by_cases hac : la = lc
      · subst hac
        exact absurd (lexLe_antisymm h₁ h₂) hab
      · simp only [if_neg hac]
        exact lexLe_trans h₁ h₂

theorem pairLexLe_total (la lb fa fb : List Char) :
    (if la = lb then lexLe fa fb else lexLe la lb) = true ∨
      (if lb = la then lexLe fb fa else lexLe lb la) = true := by
  by_cases hab : la = lb
  · subst hab
    simp only [if_pos rfl]
    exact lexLe_total fa fb
  · simp only [if_neg hab, if_neg (Ne.symm hab)]
    exact lexLe_total la lb

theorem leDriver_total (a b : Driver) : leDriver a b = true ∨ leDriver b a = true :=
  pairLexLe_total (lowerS a.lastName).data (lowerS b.lastName).data
    (lowerS a.firstName).data (lowerS b.firstName).data

theorem leDriver_trans (a b c : Driver) (h₁ : leDriver a b = true)
    (h₂ : leDriver b c = true) : leDriver a c = true :=
  pairLexLe_trans h₁ h₂

instance : IsTotal Driver DriverLe := ⟨fun a b => leDriver_total a b⟩

instance : IsTrans Driver DriverLe := ⟨fun a b c => leDriver_trans a b c⟩

/-! ### Entry-processing step lemmas -/

/-- A row actually reaches and updates the driver record with key k: it is
not worker-only, its derived key is k, and k passes the usability check. -/
def touches (k : String) (e : Entry) : Bool :=
  !(_is_worker_only (e.segment.getD "")) && (entryKey e == k) && !(k == "" || k == "|")

/-- Time-trials hit: the row touches k and its group is time-trials. -/
def ttHit (k : String) (e : Entry) : Bool :=
  touches k e && _is_time_trials (e.group.getD "")

/-- Instructor hit. -/
def instrHit (k : String) (e : Entry) : Bool :=
  touches k e && _is_instructor (e.group.getD "")

/-- Advanced-HPDE hit. -/
def advHit (k : String) (e : Entry) : Bool :=
  touches k e && _is_advanced_hpde (e.group.getD "")

/-- The day a row contributes to a day set, when its parsed day is truthy. -/
def dayAdded (e : Entry) : Option String :=
  match _parse_segment (e.segment.getD "") with
  | none => none
  | some x => if x == "" then none else some x

/-- Projection of an optional driver to a flag, reading a missing record as
false. -/
def boolOf (f : Driver → Bool) (o : Option Driver) : Bool :=
  o.elim false f

/-- Projection of an optional driver to a day set, reading a missing record
as the empty set. -/
def daysOf (f : Driver → Finset String) (o : Option Driver) : Finset String :=
  o.elim ∅ f

/-- Projection of an optional driver to a string field, reading a missing
record as the empty string. -/
def fieldOf (f : Driver → String) (o : Option Driver) : String :=
  o.elim "" f

theorem _init_driver_record_ok {e : Entry} {d : Driver}
    (h : _init_driver_record e = .ok d) :
    ∃ f l, d = { firstName := f, lastName := l } := by
  unfold _init_driver_record at h
  cases hf : e.firstName.getD "" with
  | none => simp [hf] at h
  | some f =>
    cases hl : e.lastName.getD "" with
    | none => simp [hf, hl] at h
    | some l =>
      simp [hf, hl] at h
      exact ⟨trimS f, trimS l, h.symm⟩

theorem _process_entry_ok_not_touches {m m' : DriversMap} {e : Entry} {k : String}
    (h : _process_entry m e = .ok m') (ht : touches k e = false) :
    dictGet m' k = dictGet m k := by
  unfold _process_entry at h
  cases hw : _is_worker_only (e.segment.getD "") with
  | true =>
    simp [hw] at h
    rw [← h]
  | false =>
    simp only [hw, Bool.false_eq_true, if_false] at h
    cases hkv : (entryKey e == "" || entryKey e == "|") with
    | true =>
      simp only [hkv, if_true] at h
      cases h
      rfl
    | false =>
      simp only [hkv, Bool.false_eq_true, if_false] at h
      have hkk : entryKey e ≠ k := by
        intro hkk
        subst hkk
        simp [touches, hw, hkv] at ht
      cases hd : dictGet m (entryKey e) with
      | some d =>
        simp only [hd] at h
        cases h
        exact dictGet_dictSet_ne m (entryKey e) k _ hkk
      | none =>
        simp only [hd] at h
        cases hi : _init_driver_record e with
        | ok d =>
          simp only [hi] at h
          cases h
          exact dictGet_dictSet_ne m (entryKey e) k _ hkk
        | error u => simp [hi] at h

theorem _process_entry_ok_touches {m m' : DriversMap} {e : Entry} {k : String}
    (h : _process_entry m e = .ok m') (ht : touches k e = true) :
    ∃ d0, dictGet m' k = some (applyGroups e d0) ∧
      (dictGet m k = some d0 ∨ (dictGet m k = none ∧ _init_driver_record e = .ok d0)) := by
  have hw : _is_worker_only (e.segment.getD "") = false := by
    cases hw : _is_worker_only (e.segment.getD "") with
    | false => rfl
    | true => simp [touches, hw] at ht
  have hke : entryKey e = k := by
    have := ht
    simp only [touches, Bool.and_eq_true, beq_iff_eq] at this
    exact this.1.2
  have hkv : (entryKey e == "" || entryKey e == "|") = false := by
    have := ht
    simp only [touches, Bool.and_eq_true, Bool.not_eq_true'] at this
    rw [hke]
    exact this.2
  unfold _process_entry at h
  simp only [hw, Bool.false_eq_true, if_false, hkv] at h
  rw [hke] at h
  cases hd : dictGet m k with
  | some d =>
    simp only [hd] at h
    cases h
    exact ⟨d, dictGet_dictSet_self m k _, Or.inl rfl⟩
  | none =>
    simp only [hd] at h
    cases hi : _init_driver_record e with
    | ok d =>
      simp only [hi] at h
      cases h
      exact ⟨d, dictGet_dictSet_self m k _, Or.inr ⟨rfl, rfl⟩⟩
    | error u => simp [hi] at h

/-! ### Projections of the group updates -/

theorem applyGroups_is_tt (e : Entry) (d : Driver) :
    (applyGroups e d).is_tt = (d.is_tt || _is_time_trials (e.group.getD "")) := by
  cases h1 : _is_time_trials (e.group.getD "") <;>
    cases h2 : _is_instructor (e.group.getD "") <;>
    cases h3 : _is_advanced_hpde (e.group.getD "") <;>
    simp [applyGroups, _update_driver_with_tt_data, updInstructor, updAdvanced, h1, h2, h3]

theorem applyGroups_is_instructor (e : Entry) (d : Driver) :
    (applyGroups e d).is_instructor = (d.is_instructor || _is_instructor (e.group.getD "")) := by
  cases h1 : _is_time_trials (e.group.getD "") <;>
    cases h2 : _is_instructor (e.group.getD "") <;>
    cases h3 : _is_advanced_hpde (e.group.getD "") <;>
    simp [applyGroups, _update_driver_with_tt_data, updInstructor, updAdvanced, h1, h2, h3]

theorem applyGroups_is_advanced (e : Entry) (d : Driver) :
    (applyGroups e d).is_advanced_hpde =
      (d.is_advanced_hpde || _is_advanced_hpde (e.group.getD "")) := by
  cases h1 : _is_time_trials (e.group.getD "") <;>
    cases h2 : _is_instructor (e.group.getD "") <;>
    cases h3 : _is_advanced_hpde (e.group.getD "") <;>
    simp [applyGroups, _update_driver_with_tt_data, updInstructor, updAdvanced, h1, h2, h3]

theorem mem_addDay (s : Finset String) (day : Option String) (x : String) :
    x ∈ addDay s day ↔
      (x ∈ s ∨ (match day with
        | none => none
        | some y => if y == "" then none else some y) = some x) := by
  cases day with
  | none => simp [addDay]
  | some y =>
    by_cases hy : y = ""
    · subst hy
      simp [addDay]
    · simp only [addDay, beq_iff_eq, if_neg hy, Finset.mem_insert]
      constructor
      · rintro (rfl | hx)
        · exact Or.inr rfl
        · exact Or.inl hx
      · rintro (hx | he)
        · exact Or.inr hx
        · cases he
          exact Or.inl rfl

theorem mem_applyGroups_days_tt (e : Entry) (d : Driver) (x : String) :
    x ∈ (applyGroups e d).days_tt ↔
      (x ∈ d.days_tt ∨ (_is_time_trials (e.group.getD "") = true ∧ dayAdded e = some x)) := by
  cases h1 : _is_time_trials (e.group.getD "") <;>
    cases h2 : _is_instructor (e.group.getD "") <;>
    cases h3 : _is_advanced_hpde (e.group.getD "") <;>
    simp only [applyGroups, _update_driver_with_tt_data, updInstructor, updAdvanced,
      h1, h2, h3, Bool.false_eq_true, if_true, if_false, true_and, false_and, or_false]
  all_goals try rw [mem_addDay]
  all_goals simp [dayAdded]

theorem mem_applyGroups_days_instructor (e : Entry) (d : Driver) (x : String) :
    x ∈ (applyGroups e d).days_instructor ↔
      (x ∈ d.days_instructor ∨
        (_is_instructor (e.group.getD "") = true ∧ dayAdded e = some x)) := by
  cases h1 : _is_time_trials (e.group.getD "") <;>
    cases h2 : _is_instructor (e.group.getD "") <;>
    cases h3 : _is_advanced_hpde (e.group.getD "") <;>
    simp only [applyGroups, _update_driver_with_tt_data, updInstructor, updAdvanced,
      h1, h2, h3, Bool.false_eq_true, if_true, if_false, true_and, false_and, or_false]
  all_goals try rw [mem_addDay]
  all_goals simp [dayAdded]

theorem mem_applyGroups_days_advanced (e : Entry) (d : Driver) (x : String) :
    x ∈ (applyGroups e d).days_advanced ↔
      (x ∈ d.days_advanced ∨
        (_is_advanced_hpde (e.group.getD "") = true ∧ dayAdded e = some x)) := by
  cases h1 : _is_time_trials (e.group.getD "") <;>
    cases h2 : _is_instructor (e.group.getD "") <;>
    cases h3 : _is_advanced_hpde (e.group.getD "") <;>
    simp only [applyGroups, _update_driver_with_tt_data, updInstructor, updAdvanced,
      h1, h2, h3, Bool.false_eq_true, if_true, if_false, true_and, false_and, or_false]
  all_goals try rw [mem_addDay]
  all_goals simp [dayAdded]

theorem boolOf_some (f : Driver → Bool) (d : Driver) : boolOf f (some d) = f d := rfl

theorem daysOf_some (f : Driver → Finset String) (d : Driver) : daysOf f (some d) = f d := rfl

theorem fieldOf_some (f : Driver → String) (d : Driver) : fieldOf f (some d) = f d := rfl

theorem exists_mem_cons_iff' {α : Type} (a : α) (l : List α) (p : α → Prop) :
    (∃ x ∈ a :: l, p x) ↔ (p a ∨ ∃ x ∈ l, p x) := by
  constructor
  · rintro ⟨x, hx, hp⟩
    rcases List.mem_cons.mp hx with rfl | hx
    · exact Or.inl hp
    · exact Or.inr ⟨x, hx, hp⟩
  · rintro (hp | ⟨x, hx, hp⟩)
    · exact ⟨a, List.mem_cons_self a l, hp⟩
    · exact ⟨x, List.mem_cons_of_mem a hx, hp⟩

set_option maxHeartbeats 1000000 in
/-- Characterization of the aggregation fold: existence, the three program
flags, and membership of the three day sets of the record at key k, in terms
of the starting map and the rows that hit k. -/
theorem agg_char (k : String) (l : List Entry) : ∀ (m₀ m : DriversMap),
    processEntriesFrom m₀ l = .ok m →
    ((dictGet m k).isSome = true ↔
      ((dictGet m₀ k).isSome = true ∨ ∃ e ∈ l, touches k e = true)) ∧
    (boolOf Driver.is_tt (dictGet m k) = true ↔
      (boolOf Driver.is_tt (dictGet m₀ k) = true ∨ ∃ e ∈ l, ttHit k e = true)) ∧
    (boolOf Driver.is_instructor (dictGet m k) = true ↔
      (boolOf Driver.is_instructor (dictGet m₀ k) = true ∨ ∃ e ∈ l, instrHit k e = true)) ∧
    (boolOf Driver.is_advanced_hpde (dictGet m k) = true ↔
      (boolOf Driver.is_advanced_hpde (dictGet m₀ k) = true ∨ ∃ e ∈ l, advHit k e = true)) ∧
    (∀ x, x ∈ daysOf Driver.days_tt (dictGet m k) ↔
      (x ∈ daysOf Driver.days_tt (dictGet m₀ k) ∨
        ∃ e ∈ l, ttHit k e = true ∧ dayAdded e = some x)) ∧
    (∀ x, x ∈ daysOf Driver.days_instructor (dictGet m k) ↔
      (x ∈ daysOf Driver.days_instructor (dictGet m₀ k) ∨
        ∃ e ∈ l, instrHit k e = true ∧ dayAdded e = some x)) ∧
    (∀ x, x ∈ daysOf Driver.days_advanced (dictGet m k) ↔
      (x ∈ daysOf Driver.days_advanced (dictGet m₀ k) ∨
        ∃ e ∈ l, advHit k e = true ∧ dayAdded e = some x)) := by
  induction l with
  | nil =>
    intro m₀ m h
    cases h
    simp
  | cons e l ih =>
    intro m₀ m h
    cases hp : _process_entry m₀ e with
    | error u =>
      simp only [processEntriesFrom, hp] at h
      exact Except.noConfusion h
    | ok m₁ =>
      simp only [processEntriesFrom, hp] at h
      obtain ⟨hEx, hTT, hIn, hAd, hDT, hDI, hDA⟩ := ih m₁ m h
      cases ht : touches k e with
      | false =>
        have hstep := _process_entry_ok_not_touches hp ht
        rw [hstep] at hEx hTT hIn hAd hDT hDI hDA
        have hTTe : ttHit k e = false := by simp [ttHit, ht]
        have hIne : instrHit k e = false := by simp [instrHit, ht]
        have hAde : advHit k e = false := by simp [advHit, ht]
        refine ⟨?_, ?_, ?_, ?_, ?_, ?_, ?_⟩
        · rw [hEx, exists_mem_cons_iff']
          simp [ht]
        · rw [hTT, exists_mem_cons_iff']
          simp [hTTe]
        · rw [hIn, exists_mem_cons_iff']
          simp [hIne]
        · rw [hAd, exists_mem_cons_iff']
          simp [hAde]
        · intro x
          rw [hDT x, exists_mem_cons_iff']
          simp [hTTe]
        · intro x
          rw [hDI x, exists_mem_cons_iff']
          simp [hIne]
        · intro x
          rw [hDA x, exists_mem_cons_iff']
          simp [hAde]
      | true =>
        obtain ⟨d0, hm1, hd0⟩ := _process_entry_ok_touches hp ht
        rw [hm1] at hEx hTT hIn hAd hDT hDI hDA
        have hTTe : ttHit k e = _is_time_trials (e.group.getD "") := by
          simp [ttHit, ht]
        have hIne : instrHit k e = _is_instructor (e.group.getD "") := by
          simp [instrHit, ht]
        have hAde : advHit k e = _is_advanced_hpde (e.group.getD "") := by
          simp [advHit, ht]
        have hproj :
            boolOf Driver.is_tt (dictGet m₀ k) = d0.is_tt ∧
            boolOf Driver.is_instructor (dictGet m₀ k) = d0.is_instructor ∧
            boolOf Driver.is_advanced_hpde (dictGet m₀ k) = d0.is_advanced_hpde ∧
            daysOf Driver.days_tt (dictGet m₀ k) = d0.days_tt ∧
            daysOf Driver.days_instructor (dictGet m₀ k) = d0.days_instructor ∧
            daysOf Driver.days_advanced (dictGet m₀ k) = d0.days_advanced := by
          rcases hd0 with hsome | ⟨hnone, hinit⟩
          · simp [hsome, boolOf, daysOf]
          · obtain ⟨f, l', rfl⟩ := _init_driver_record_ok hinit
            simp [hnone, boolOf, daysOf]
        obtain ⟨pTT, pIn, pAd, pDT, pDI, pDA⟩ := hproj
        refine ⟨?_, ?_, ?_, ?_, ?_, ?_, ?_⟩
        · rw [hEx, exists_mem_cons_iff']
          rcases hd0 with hsome | ⟨hnone, _⟩
          · simp [hsome, ht]
          · simp [hnone, ht]
        · rw [hTT, exists_mem_cons_iff', hTTe, pTT]
          simp only [boolOf_some, applyGroups_is_tt, Bool.or_eq_true]
          exact or_assoc
        · rw [hIn, exists_mem_cons_iff', hIne, pIn]
          simp only [boolOf_some, applyGroups_is_instructor, Bool.or_eq_true]
          exact or_assoc
        · rw [hAd, exists_mem_cons_iff', hAde, pAd]
          simp only [boolOf_some, applyGroups_is_advanced, Bool.or_eq_true]
          exact or_assoc
        · intro x
          rw [hDT x, exists_mem_cons_iff', hTTe, pDT]
          simp only [daysOf_some, mem_applyGroups_days_tt]
          exact or_assoc
        · intro x
          rw [hDI x, exists_mem_cons_iff', hIne, pDI]
          simp only [daysOf_some, mem_applyGroups_days_instructor]
          exact or_assoc
        · intro x
          rw [hDA x, exists_mem_cons_iff', hAde, pDA]
          simp only [daysOf_some, mem_applyGroups_days_advanced]
          exact or_assoc

/-! ### Vehicle-field machinery -/

/-- A view of one vehicle field: its projections on driver records and entry
rows, together with how each update function treats it. -/
structure FieldView where
  fD : Driver → String
  fE : Entry → PyField
  upd : ∀ d e day, fD (_update_driver_with_tt_data d e day) = mergeField (fD d) (fE e)
  instr : ∀ d day, fD (updInstructor d day) = fD d
  adv : ∀ d day, fD (updAdvanced d day) = fD d
  init : ∀ e d, _init_driver_record e = Except.ok d → fD d = ""

theorem FieldView.applyGroups_eq (v : FieldView) (e : Entry) (d : Driver) :
    v.fD (applyGroups e d) =
      if _is_time_trials (e.group.getD "") then mergeField (v.fD d) (v.fE e)
      else v.fD d := by
  cases h1 : _is_time_trials (e.group.getD "") <;>
    cases h2 : _is_instructor (e.group.getD "") <;>
    cases h3 : _is_advanced_hpde (e.group.getD "") <;>
    simp [applyGroups, h1, h2, h3, v.upd, v.instr, v.adv]

theorem invalid_key_unchanged (l : List Entry) : ∀ (m₀ m : DriversMap),
    processEntriesFrom m₀ l = .ok m → ∀ k, (k == "" || k == "|") = true →
    dictGet m k = dictGet m₀ k := by
  induction l with
  | nil =>
    intro m₀ m h k _
    cases h
    rfl
  | cons e l ih =>
    intro m₀ m h k hkv
    cases hp : _process_entry m₀ e with
    | error u =>
      simp only [processEntriesFrom, hp] at h
      exact Except.noConfusion h
    | ok m₁ =>
      simp only [processEntriesFrom, hp] at h
      have ht : touches k e = false := by
        simp only [touches, hkv, Bool.not_true, Bool.and_false]
      rw [ih m₁ m h k hkv, _process_entry_ok_not_touches hp ht]

theorem foldl_overwrite {α β : Type} (g : α → β) (l : List α) :
    ∀ (init : β), l.foldl (fun _ e => g e) init =
      (match l.getLast? with
        | some e => g e
        | none => init) := by
  induction l with
  | nil => intro init; rfl
  | cons a t ih =>
    intro init
    rw [List.foldl_cons, ih (g a)]
    cases t with
    | nil => rfl
    | cons b t' =>
      rw [List.getLast?_cons_cons]
      cases hl : (b :: t').getLast? with
      | some x => rfl
      | none =>
        rw [List.getLast?_eq_none_iff] at hl
        exact List.noConfusion hl

/-- The value of one vehicle field at key k after the fold: the left fold of
overwrite-if-hit over the rows that hit k with a truthy value for that
field. -/
theorem field_char (v : FieldView) (k : String) (l : List Entry) :
    ∀ (m₀ m : DriversMap), processEntriesFrom m₀ l = .ok m →
    fieldOf v.fD (dictGet m k) =
      (l.filter (fun e => ttHit k e && pyTruthy (v.fE e).get)).foldl
        (fun _ e => pyOrEmpty ((v.fE e).getD ""))
        (fieldOf v.fD (dictGet m₀ k)) := by
  induction l with
  | nil =>
    intro m₀ m h
    cases h
    rfl
  | cons e l ih =>
    intro m₀ m h
    cases hp : _process_entry m₀ e with
    | error u =>
      simp only [processEntriesFrom, hp] at h
      exact Except.noConfusion h
    | ok m₁ =>
      simp only [processEntriesFrom, hp] at h
      have step : fieldOf v.fD (dictGet m₁ k) =
          if ttHit k e && pyTruthy (v.fE e).get then pyOrEmpty ((v.fE e).getD "")
          else fieldOf v.fD (dictGet m₀ k) := by
        cases ht : touches k e with
        | false =>
          have hTTe : ttHit k e = false := by simp [ttHit, ht]
          rw [_process_entry_ok_not_touches hp ht, hTTe]
          simp
        | true =>
          obtain ⟨d0, hm1, hd0⟩ := _process_entry_ok_touches hp ht
          have hbase : fieldOf v.fD (dictGet m₀ k) = v.fD d0 := by
            rcases hd0 with hsome | ⟨hnone, hinit⟩
            · rw [hsome, fieldOf_some]
            · rw [hnone, v.init e d0 hinit]
              rfl
          have hTTe : ttHit k e = _is_time_trials (e.group.getD "") := by
            simp [ttHit, ht]
          rw [hm1, fieldOf_some, v.applyGroups_eq, hbase, hTTe]
          cases h1 : _is_time_trials (e.group.getD "") with
          | false => simp
          | true =>
            simp only [if_true, Bool.true_and]
            cases h2 : pyTruthy (v.fE e).get with
            | false => simp [mergeField, h2]
            | true =>
              simp only [if_true, mergeField, h2]
      rw [ih m₁ m h, step]
      cases hpe : (ttHit k e && pyTruthy (v.fE e).get) with
      | true => simp [List.filter_cons, hpe]
      | false => simp [List.filter_cons, hpe]

def classView : FieldView :=
  { fD := Driver.«class», fE := Entry.«class»,
    upd := fun _ _ _ => rfl, instr := fun _ _ => rfl, adv := fun _ _ => rfl,
    init := fun _ _ h => by
      obtain ⟨f, l, rfl⟩ := _init_driver_record_ok h
      rfl }

def makeView : FieldView :=
  { fD := Driver.make, fE := Entry.make,
    upd := fun _ _ _ => rfl, instr := fun _ _ => rfl, adv := fun _ _ => rfl,
    init := fun _ _ h => by
      obtain ⟨f, l, rfl⟩ := _init_driver_record_ok h
      rfl }

def modelView : FieldView :=
  { fD := Driver.model, fE := Entry.model,
    upd := fun _ _ _ => rfl, instr := fun _ _ => rfl, adv := fun _ _ => rfl,
    init := fun _ _ h => by
      obtain ⟨f, l, rfl⟩ := _init_driver_record_ok h
      rfl }

def yearView : FieldView :=
  { fD := Driver.year, fE := Entry.year,
    upd := fun _ _ _ => rfl, instr := fun _ _ => rfl, adv := fun _ _ => rfl,
    init := fun _ _ h => by
      obtain ⟨f, l, rfl⟩ := _init_driver_record_ok h
      rfl }

def vehicleNumberView : FieldView :=
  { fD := Driver.vehicleNumber, fE := Entry.vehicleNumber,
    upd := fun _ _ _ => rfl, instr := fun _ _ => rfl, adv := fun _ _ => rfl,
    init := fun _ _ h => by
      obtain ⟨f, l, rfl⟩ := _init_driver_record_ok h
      rfl }

def colorView : FieldView :=
  { fD := Driver.color, fE := Entry.color,
    upd := fun _ _ _ => rfl, instr := fun _ _ => rfl, adv := fun _ _ => rfl,
    init := fun _ _ h => by
      obtain ⟨f, l, rfl⟩ := _init_driver_record_ok h
      rfl }

def sponsorView : FieldView :=
  { fD := Driver.sponsor, fE := Entry.sponsor,
    upd := fun _ _ _ => rfl, instr := fun _ _ => rfl, adv := fun _ _ => rfl,
    init := fun _ _ h => by
      obtain ⟨f, l, rfl⟩ := _init_driver_record_ok h
      rfl }

/-- View of the tire-brand slot: the aggregation updates never write it, so
it behaves like a vehicle field whose incoming value is always empty. -/
def tireView : FieldView :=
  { fD := Driver.tireBrand, fE := fun _ => PyField.str "",
    upd := fun _ _ _ => rfl, instr := fun _ _ => rfl, adv := fun _ _ => rfl,
    init := fun _ _ h => by
      obtain ⟨f, l, rfl⟩ := _init_driver_record_ok h
      rfl }

/-! ### Claim-level definitions and theorems -/

/-- The three day names a segment can contribute. -/
def dayNames : Finset String := {"Friday", "Saturday", "Sunday"}

theorem dayAdded_cases (e : Entry) (x : String) (h : dayAdded e = some x) :
    x = "Friday" ∨ x = "Saturday" ∨ x = "Sunday" := by
  unfold dayAdded _parse_segment at h
  cases hseg : e.segment.getD "" with
  | none => rw [hseg] at h; exact Option.noConfusion h
  | some s =>
    rw [hseg] at h
    dsimp only at h
    split_ifs at h <;> simp_all

theorem day_count_label_cases (n : Nat) :
    _get_day_count n ∈ (["", "1 Day", "2 Days", "3 Days"] : List String) := by
  by_cases h1 : n = 1 <;> by_cases h2 : n = 2 <;> by_cases h3 : 3 ≤ n <;>
    simp [_get_day_count, h1, h2, h3]

/-- An entry-list row carrying a null first name together with a usable key
and a non-worker time-trials segment: the smallest shape on which the source
raises. -/
def c1Entry : Entry :=
  { firstName := .null, lastName := .str "Doe",
    segment := .str "Friday Time Trials", group := .str "Time Trials" }

/-- C1: the claim says the transform never raises and treats null fields as
empty strings.  The code contradicts it: on a row whose firstName is null
(while the derived key is usable and the row is not worker-only), the record
initializer calls .strip() on None and raises, aborting report generation. -/
theorem C1_null_name_raises :
    _is_worker_only (c1Entry.segment.getD "") = false ∧
    entryKey c1Entry = "|doe" ∧
    _init_driver_record c1Entry = .error () ∧
    _process_entry [] c1Entry = .error () ∧
    generate_tt_report [c1Entry] [] [] = .error () :=
  ⟨rfl, rfl, rfl, rfl, rfl⟩

/-- C3: a row whose segment is absent, null, empty, or contains "workers"
case-insensitively leaves the aggregated-participant map unchanged, whatever
its group says. -/
theorem C3_worker_row_is_noop (e : Entry) (m : DriversMap)
    (h : e.segment = .absent ∨ e.segment = .null ∨ e.segment = .str "" ∨
      ∃ s, e.segment = .str s ∧ subStr "workers" (lowerS s) = true) :
    _process_entry m e = .ok m := by
  have hw : _is_worker_only (e.segment.getD "") = true := by
    rcases h with h | h | h | ⟨s, h, hsub⟩ <;> rw [h]
    · rfl
    · rfl
    · rfl
    · by_cases hs : s = ""
      · subst hs
        rfl
      · simp [_is_worker_only, PyField.getD, hs, hsub]
  simp [_process_entry, hw]

def c3Entry : Entry :=
  { firstName := .str "Worker", lastName := .str "Only",
    segment := .str "Saturday Workers", group := .str "Time Trials - Sport 1" }

def c3Map : DriversMap := [("a|b", {})]

theorem C3_worker_row_is_noop_witness :
    (c3Entry.segment = .absent ∨ c3Entry.segment = .null ∨ c3Entry.segment = .str "" ∨
      ∃ s, c3Entry.segment = .str s ∧ subStr "workers" (lowerS s) = true) ∧
    _process_entry c3Map c3Entry = .ok c3Map :=
  ⟨Or.inr (Or.inr (Or.inr ⟨"Saturday Workers", rfl, by decide⟩)),
    C3_worker_row_is_noop c3Entry c3Map
      (Or.inr (Or.inr (Or.inr ⟨"Saturday Workers", rfl, by decide⟩)))⟩

/-- C7: in every emitted row the AYCE column reflects isTimeTrials AND
isAdvancedProgram, and the participation-type label is exactly the four-way
classification, so a participant with either flag set is never "TT Only". -/
theorem C7_participation_type (d : Driver) :
    ((_write_driver_row d).ayce = (if d.is_tt && d.is_advanced_hpde then "Yes" else "No")) ∧
    ((_write_driver_row d).participationType = "TT + Instructor + AYCE" ↔
      (d.is_instructor = true ∧ (d.is_tt && d.is_advanced_hpde) = true)) ∧
    ((_write_driver_row d).participationType = "TT + Instructor" ↔
      (d.is_instructor = true ∧ (d.is_tt && d.is_advanced_hpde) = false)) ∧
    ((_write_driver_row d).participationType = "TT + AYCE" ↔
      (d.is_instructor = false ∧ (d.is_tt && d.is_advanced_hpde) = true)) ∧
    ((_write_driver_row d).participationType = "TT Only" ↔
      (d.is_instructor = false ∧ (d.is_tt && d.is_advanced_hpde) = false)) := by
  cases hI : d.is_instructor <;> cases hT : d.is_tt <;> cases hA : d.is_advanced_hpde <;>
    simp [_write_driver_row, _get_participation_type, hI, hT, hA]

theorem subset_three (s : Finset String) (hs : s ⊆ dayNames) :
    s = ∅ ∨ s = {"Friday"} ∨ s = {"Saturday"} ∨ s = {"Sunday"} ∨
    s = {"Friday", "Saturday"} ∨ s = {"Friday", "Sunday"} ∨
    s = {"Saturday", "Sunday"} ∨ s = dayNames := by
  have hx : ∀ x ∈ s, x = "Friday" ∨ x = "Saturday" ∨ x = "Sunday" := by
    intro x hxs
    have hm := hs hxs
    simp only [dayNames, Finset.mem_insert, Finset.mem_singleton] at hm
    exact hm
  by_cases hF : "Friday" ∈ s <;> by_cases hS : "Saturday" ∈ s <;>
    by_cases hU : "Sunday" ∈ s
  · refine Or.inr (Or.inr (Or.inr (Or.inr (Or.inr (Or.inr (Or.inr ?_))))))
    apply Finset.Subset.antisymm hs
    intro x hxm
    simp only [dayNames, Finset.mem_insert, Finset.mem_singleton] at hxm
    rcases hxm with rfl | rfl | rfl
    · exact hF
    · exact hS
    · exact hU
  · refine Or.inr (Or.inr (Or.inr (Or.inr (Or.inl ?_))))
    apply Finset.Subset.antisymm
    · intro x hxs
      rcases hx x hxs with rfl | rfl | rfl
      · simp
      · simp
      · exact absurd hxs hU
    · intro x hxm
      simp only [Finset.mem_insert, Finset.mem_singleton] at hxm
      rcases hxm with rfl | rfl
      · exact hF
      · exact hS
  · refine Or.inr (Or.inr (Or.inr (Or.inr (Or.inr (Or.inl ?_)))))
    apply Finset.Subset.antisymm
    · intro x hxs
      rcases hx x hxs with rfl | rfl | rfl
      · simp
      · exact absurd hxs hS
      · simp
    · intro x hxm
      simp only [Finset.mem_insert, Finset.mem_singleton] at hxm
      rcases hxm with rfl | rfl
      · exact hF
      · exact hU
  · refine Or.inr (Or.inl ?_)
    apply Finset.Subset.antisymm
    · intro x hxs
      rcases hx x hxs with rfl | rfl | rfl
      · simp
      · exact absurd hxs hS
      · exact absurd hxs hU
    · intro x hxm
      simp only [Finset.mem_singleton] at hxm
      subst hxm
      exact hF
  · refine Or.inr (Or.inr (Or.inr (Or.inr (Or.inr (Or.inr (Or.inl ?_))))))
    apply Finset.Subset.antisymm
    · intro x hxs
      rcases hx x hxs with rfl | rfl | rfl
      · exact absurd hxs hF
      · simp
      · simp
    · intro x hxm
      simp only [Finset.mem_insert, Finset.mem_singleton] at hxm
      rcases hxm with rfl | rfl
      · exact hS
      · exact hU
  · refine Or.inr (Or.inr (Or.inl ?_))
    apply Finset.Subset.antisymm
    · intro x hxs
      rcases hx x hxs with rfl | rfl | rfl
      · exact absurd hxs hF
      · simp
      · exact absurd hxs hU
    · intro x hxm
      simp only [Finset.mem_singleton] at hxm
      subst hxm
      exact hS
  · refine Or.inr (Or.inr (Or.inr (Or.inl ?_)))
    apply Finset.Subset.antisymm
    · intro x hxs
      rcases hx x hxs with rfl | rfl | rfl
      · exact absurd hxs hF
      · exact absurd hxs hS
      · simp
    · intro x hxm
      simp only [Finset.mem_singleton] at hxm
      subst hxm
      exact hU
  · refine Or.inl ?_
    apply Finset.Subset.antisymm
    · intro x hxs
      rcases hx x hxs with rfl | rfl | rfl
      · exact absurd hxs hF
      · exact absurd hxs hS
      · exact absurd hxs hU
    · exact Finset.empty_subset s

/-- C8: for a day set drawn from the three event days, the count used for
derived fields is exactly the set's size, the count label is the 1/2/3-day
bucket, the display string is the one the spec assigns to each subset, and
the instructor/advanced day sets play no part in either day column. -/
theorem C8_day_count_and_display (s : Finset String) (hs : s ⊆ dayNames) :
    (_format_days_string s).2 = s.card ∧
    (∀ n : Nat, _get_day_count n =
      if n = 1 then "1 Day" else if n = 2 then "2 Days"
      else if 3 ≤ n then "3 Days" else "") ∧
    ((_format_days_string s).1 =
      if s = dayNames then "All 3"
      else if s = {"Friday", "Saturday"} then "Fri/Sat"
      else if s = {"Friday", "Sunday"} then "Fri/Sun"
      else if s = {"Saturday", "Sunday"} then "Sat/Sun"
      else if s = {"Friday"} then "Friday"
      else if s = {"Saturday"} then "Saturday"
      else if s = {"Sunday"} then "Sunday"
      else "") ∧
    (∀ (d : Driver) (s₁ s₂ : Finset String),
      (_write_driver_row { d with days_instructor := s₁, days_advanced := s₂ }).dayCount =
        (_write_driver_row d).dayCount ∧
      (_write_driver_row { d with days_instructor := s₁, days_advanced := s₂ }).days =
        (_write_driver_row d).days) := by
  refine ⟨?_, ?_, ?_, fun d s₁ s₂ => ⟨rfl, rfl⟩⟩
  · rcases subset_three s hs with rfl | rfl | rfl | rfl | rfl | rfl | rfl | rfl <;> decide
  · intro n
    by_cases h1 : n = 1 <;> by_cases h2 : n = 2 <;> by_cases h3 : 3 ≤ n <;>
      simp [_get_day_count, h1, h2, h3]
  · rcases subset_three s hs with rfl | rfl | rfl | rfl | rfl | rfl | rfl | rfl <;> decide

theorem C8_day_count_and_display_witness :
    ({"Friday", "Sunday"} : Finset String) ⊆ dayNames ∧
    (_format_days_string {"Friday", "Sunday"}).2 = ({"Friday", "Sunday"} : Finset String).card ∧
    (_format_days_string {"Friday", "Sunday"}).1 = "Fri/Sun" ∧
    _get_day_count (_format_days_string {"Friday", "Sunday"}).2 = "2 Days" :=
  ⟨by decide,
    (C8_day_count_and_display {"Friday", "Sunday"} (by decide)).1,
    by decide, by decide⟩

/-- C9: after any successful aggregation every driver record's three day sets
are subsets of Friday/Saturday/Sunday, its time-trials day count is at most 3,
and its Day Count cell is one of the four bucket labels. -/
theorem C9_day_sets_bounded (l : List Entry) (m : DriversMap) (k : String) (d : Driver)
    (h : processEntries l = .ok m) (hd : dictGet m k = some d) :
    d.days_tt ⊆ dayNames ∧ d.days_instructor ⊆ dayNames ∧ d.days_advanced ⊆ dayNames ∧
    d.days_tt.card ≤ 3 ∧
    (_write_driver_row d).dayCount ∈ (["", "1 Day", "2 Days", "3 Days"] : List String) := by
  obtain ⟨hEx, hTT, hIn, hAd, hDT, hDI, hDA⟩ := agg_char k l [] m h
  rw [hd] at hDT hDI hDA
  have hsub : d.days_tt ⊆ dayNames := by
    intro x hx
    rcases (hDT x).mp (by rw [daysOf_some]; exact hx) with hx0 | ⟨e, _, _, hday⟩
    · simp [dictGet, daysOf] at hx0
    · rcases dayAdded_cases e x hday with rfl | rfl | rfl <;> simp [dayNames]
  refine ⟨hsub, ?_, ?_, ?_, ?_⟩
  · intro x hx
    rcases (hDI x).mp (by rw [daysOf_some]; exact hx) with hx0 | ⟨e, _, _, hday⟩
    · simp [dictGet, daysOf] at hx0
    · rcases dayAdded_cases e x hday with rfl | rfl | rfl <;> simp [dayNames]
  · intro x hx
    rcases (hDA x).mp (by rw [daysOf_some]; exact hx) with hx0 | ⟨e, _, _, hday⟩
    · simp [dictGet, daysOf] at hx0
    · rcases dayAdded_cases e x hday with rfl | rfl | rfl <;> simp [dayNames]
  · exact le_trans (Finset.card_le_card hsub) (by decide)
  · exact day_count_label_cases _

def c9Entry : Entry :=
  { firstName := .str "John", lastName := .str "Doe",
    segment := .str "Saturday Time Trials", group := .str "Time Trials - Sport 1" }

def c9Map : DriversMap := (processEntries [c9Entry]).toOption.getD []

def c9Driver : Driver := (dictGet c9Map "john|doe").getD {}

theorem C9_day_sets_bounded_witness :
    processEntries [c9Entry] = .ok c9Map ∧
    dictGet c9Map "john|doe" = some c9Driver ∧
    (c9Driver.days_tt ⊆ dayNames ∧ c9Driver.days_instructor ⊆ dayNames ∧
      c9Driver.days_advanced ⊆ dayNames ∧ c9Driver.days_tt.card ≤ 3 ∧
      (_write_driver_row c9Driver).dayCount ∈ (["", "1 Day", "2 Days", "3 Days"] : List String)) :=
  ⟨rfl, rfl, C9_day_sets_bounded [c9Entry] c9Map "john|doe" c9Driver rfl rfl⟩

/-- The value the claim assigns to a vehicle field: the field of the last
non-worker time-trials row for identity k whose value for that field is
truthy, or empty when there is none. -/
def lastFieldValue (k : String) (fE : Entry → PyField) (l : List Entry) : String :=
  match (l.filter (fun e => ttHit k e && pyTruthy (fE e).get)).getLast? with
  | some e => pyOrEmpty ((fE e).getD "")
  | none => ""

theorem field_final (v : FieldView) (l : List Entry) (m : DriversMap) (k : String)
    (d : Driver) (h : processEntries l = .ok m) (hd : dictGet m k = some d) :
    v.fD d = lastFieldValue k v.fE l := by
  have hc := field_char v k l [] m h
  rw [hd, fieldOf_some] at hc
  rw [hc]
  have hbase : fieldOf v.fD (dictGet ([] : DriversMap) k) = "" := rfl
  rw [hbase, foldl_overwrite]
  unfold lastFieldValue
  cases (List.filter (fun e => ttHit k e && pyTruthy (v.fE e).get) l).getLast? <;> rfl

/-- C2: after folding any entry list, every vehicle field of an aggregated
participant holds the value of the last non-worker time-trials row for that
identity with a truthy value in that field (independently per field), and is
empty when no such row exists; non-time-trials rows and empty incoming values
never change it. -/
theorem C2_vehicle_fields_last_nonempty (l : List Entry) (m : DriversMap) (k : String)
    (d : Driver) (h : processEntries l = .ok m) (hd : dictGet m k = some d) :
    d.«class» = lastFieldValue k Entry.«class» l ∧
    d.make = lastFieldValue k Entry.make l ∧
    d.model = lastFieldValue k Entry.model l ∧
    d.year = lastFieldValue k Entry.year l ∧
    d.vehicleNumber = lastFieldValue k Entry.vehicleNumber l ∧
    d.color = lastFieldValue k Entry.color l ∧
    d.sponsor = lastFieldValue k Entry.sponsor l :=
  ⟨field_final classView l m k d h hd,
   field_final makeView l m k d h hd,
   field_final modelView l m k d h hd,
   field_final yearView l m k d h hd,
   field_final vehicleNumberView l m k d h hd,
   field_final colorView l m k d h hd,
   field_final sponsorView l m k d h hd⟩

def c2Row1 : Entry :=
  { firstName := .str "John", lastName := .str "Doe",
    segment := .str "Saturday Time Trials", group := .str "Time Trials - Sport 1",
    «class» := .str "Sport 1", make := .str "Mazda" }

def c2Row2 : Entry :=
  { firstName := .str "John", lastName := .str "Doe",
    segment := .str "Sunday Time Trials", group := .str "Time Trials - Sport 1",
    «class» := .str "", make := .absent, color := .str "Red" }

def c2Map : DriversMap := (processEntries [c2Row1, c2Row2]).toOption.getD []

def c2Driver : Driver := (dictGet c2Map "john|doe").getD {}

theorem C2_vehicle_fields_last_nonempty_witness :
    processEntries [c2Row1, c2Row2] = .ok c2Map ∧
    dictGet c2Map "john|doe" = some c2Driver ∧
    (c2Driver.«class» = lastFieldValue "john|doe" Entry.«class» [c2Row1, c2Row2] ∧
     c2Driver.make = lastFieldValue "john|doe" Entry.make [c2Row1, c2Row2] ∧
     c2Driver.model = lastFieldValue "john|doe" Entry.model [c2Row1, c2Row2] ∧
     c2Driver.year = lastFieldValue "john|doe" Entry.year [c2Row1, c2Row2] ∧
     c2Driver.vehicleNumber = lastFieldValue "john|doe" Entry.vehicleNumber [c2Row1, c2Row2] ∧
     c2Driver.color = lastFieldValue "john|doe" Entry.color [c2Row1, c2Row2] ∧
     c2Driver.sponsor = lastFieldValue "john|doe" Entry.sponsor [c2Row1, c2Row2]) ∧
    c2Driver.«class» = "Sport 1" ∧ c2Driver.make = "Mazda" ∧ c2Driver.color = "Red" :=
  ⟨rfl, rfl,
    C2_vehicle_fields_last_nonempty [c2Row1, c2Row2] c2Map "john|doe" c2Driver rfl rfl,
    by decide, by decide, by decide⟩

/-! ### Order independence of flags and day sets -/

theorem touches_key (k : String) (e : Entry) (h : touches k e = true) :
    (entryKey e == k) = true := by
  simp only [touches, Bool.and_eq_true] at h
  exact h.1.2

theorem ttHit_key (k : String) (e : Entry) (h : ttHit k e = true) :
    (entryKey e == k) = true := by
  simp only [ttHit, Bool.and_eq_true] at h
  exact touches_key k e h.1

theorem instrHit_key (k : String) (e : Entry) (h : instrHit k e = true) :
    (entryKey e == k) = true := by
  simp only [instrHit, Bool.and_eq_true] at h
  exact touches_key k e h.1

theorem advHit_key (k : String) (e : Entry) (h : advHit k e = true) :
    (entryKey e == k) = true := by
  simp only [advHit, Bool.and_eq_true] at h
  exact touches_key k e h.1

theorem exists_iff_of_filter_perm {k : String} {l₁ l₂ : List Entry}
    (hperm : (l₁.filter (fun e => entryKey e == k)).Perm
      (l₂.filter (fun e => entryKey e == k)))
    (P : Entry → Prop) (hP : ∀ e, P e → (entryKey e == k) = true) :
    (∃ e ∈ l₁, P e) ↔ (∃ e ∈ l₂, P e) := by
  constructor
  · rintro ⟨e, he, hpe⟩
    have h1 : e ∈ l₁.filter (fun e => entryKey e == k) :=
      List.mem_filter.mpr ⟨he, hP e hpe⟩
    have h2 := hperm.mem_iff.mp h1
    exact ⟨e, (List.mem_filter.mp h2).1, hpe⟩
  · rintro ⟨e, he, hpe⟩
    have h1 : e ∈ l₂.filter (fun e => entryKey e == k) :=
      List.mem_filter.mpr ⟨he, hP e hpe⟩
    have h2 := hperm.mem_iff.mpr h1
    exact ⟨e, (List.mem_filter.mp h2).1, hpe⟩

/-- C6: permuting the rows that share identity key k (all other rows fixed)
does not change the existence of k's record nor its three flags and three day
sets: these are monotone accumulations over the multiset of k's rows. -/
theorem C6_flags_and_days_order_independent (l₁ l₂ : List Entry) (k : String)
    (m₁ m₂ : DriversMap)
    (hperm : (l₁.filter (fun e => entryKey e == k)).Perm
      (l₂.filter (fun e => entryKey e == k)))
    (hrest : l₁.filter (fun e => !(entryKey e == k)) =
      l₂.filter (fun e => !(entryKey e == k)))
    (h₁ : processEntries l₁ = .ok m₁) (h₂ : processEntries l₂ = .ok m₂) :
    (dictGet m₁ k).map (fun d => (d.is_tt, d.is_instructor, d.is_advanced_hpde,
      d.days_tt, d.days_instructor, d.days_advanced)) =
    (dictGet m₂ k).map (fun d => (d.is_tt, d.is_instructor, d.is_advanced_hpde,
      d.days_tt, d.days_instructor, d.days_advanced)) := by
  obtain ⟨hEx₁, hTT₁, hIn₁, hAd₁, hDT₁, hDI₁, hDA₁⟩ := agg_char k l₁ [] m₁ h₁
  obtain ⟨hEx₂, hTT₂, hIn₂, hAd₂, hDT₂, hDI₂, hDA₂⟩ := agg_char k l₂ [] m₂ h₂
  have hbase : dictGet ([] : DriversMap) k = none := rfl
  rw [hbase] at hEx₁ hTT₁ hIn₁ hAd₁ hDT₁ hDI₁ hDA₁ hEx₂ hTT₂ hIn₂ hAd₂ hDT₂ hDI₂ hDA₂
  have hExs : (dictGet m₁ k).isSome = true ↔ (dictGet m₂ k).isSome = true := by
    rw [hEx₁, hEx₂]
    simp only [Option.isSome_none, Bool.false_eq_true, false_or]
    exact exists_iff_of_filter_perm hperm _ (fun e => touches_key k e)
  have hTTs : boolOf Driver.is_tt (dictGet m₁ k) = true ↔
      boolOf Driver.is_tt (dictGet m₂ k) = true := by
    rw [hTT₁, hTT₂]
    simp only [boolOf, Option.elim_none, Bool.false_eq_true, false_or]
    exact exists_iff_of_filter_perm hperm (fun e => ttHit k e = true)
      (fun e he => ttHit_key k e he)
  have hIns : boolOf Driver.is_instructor (dictGet m₁ k) = true ↔
      boolOf Driver.is_instructor (dictGet m₂ k) = true := by
    rw [hIn₁, hIn₂]
    simp only [boolOf, Option.elim_none, Bool.false_eq_true, false_or]
    exact exists_iff_of_filter_perm hperm (fun e => instrHit k e = true)
      (fun e he => instrHit_key k e he)
  have hAds : boolOf Driver.is_advanced_hpde (dictGet m₁ k) = true ↔
      boolOf Driver.is_advanced_hpde (dictGet m₂ k) = true := by
    rw [hAd₁, hAd₂]
    simp only [boolOf, Option.elim_none, Bool.false_eq_true, false_or]
    exact exists_iff_of_filter_perm hperm (fun e => advHit k e = true)
      (fun e he => advHit_key k e he)
  have hDTs : ∀ x, x ∈ daysOf Driver.days_tt (dictGet m₁ k) ↔
      x ∈ daysOf Driver.days_tt (dictGet m₂ k) := by
    intro x
    rw [hDT₁ x, hDT₂ x]
    simp only [daysOf, Option.elim_none, Finset.not_mem_empty, false_or]
    exact exists_iff_of_filter_perm hperm
      (fun e => ttHit k e = true ∧ dayAdded e = some x)
      (fun e he => ttHit_key k e he.1)
  have hDIs : ∀ x, x ∈ daysOf Driver.days_instructor (dictGet m₁ k) ↔
      x ∈ daysOf Driver.days_instructor (dictGet m₂ k) := by
    intro x
    rw [hDI₁ x, hDI₂ x]
    simp only [daysOf, Option.elim_none, Finset.not_mem_empty, false_or]
    exact exists_iff_of_filter_perm hperm
      (fun e => instrHit k e = true ∧ dayAdded e = some x)
      (fun e he => instrHit_key k e he.1)
  have hDAs : ∀ x, x ∈ daysOf Driver.days_advanced (dictGet m₁ k) ↔
      x ∈ daysOf Driver.days_advanced (dictGet m₂ k) := by
    intro x
    rw [hDA₁ x, hDA₂ x]
    simp only [daysOf, Option.elim_none, Finset.not_mem_empty, false_or]
    exact exists_iff_of_filter_perm hperm
      (fun e => advHit k e = true ∧ dayAdded e = some x)
      (fun e he => advHit_key k e he.1)
  cases ho₁ : dictGet m₁ k with
  | none =>
    cases ho₂ : dictGet m₂ k with
    | none => rfl
    | some d₂ =>
      rw [ho₁, ho₂] at hExs
      simp at hExs
  | some d₁ =>
    cases ho₂ : dictGet m₂ k with
    | none =>
      rw [ho₁, ho₂] at hExs
      simp at hExs
    | some d₂ =>
      rw [ho₁, ho₂] at hTTs hIns hAds hDTs hDIs hDAs
      simp only [boolOf_some] at hTTs hIns hAds
      simp only [daysOf_some] at hDTs hDIs hDAs
      have e1 : d₁.is_tt = d₂.is_tt := Bool.eq_iff_iff.mpr hTTs
      have e2 : d₁.is_instructor = d₂.is_instructor := Bool.eq_iff_iff.mpr hIns
      have e3 : d₁.is_advanced_hpde = d₂.is_advanced_hpde := Bool.eq_iff_iff.mpr hAds
      have e4 : d₁.days_tt = d₂.days_tt := Finset.ext hDTs
      have e5 : d₁.days_instructor = d₂.days_instructor := Finset.ext hDIs
      have e6 : d₁.days_advanced = d₂.days_advanced := Finset.ext hDAs
      simp [e1, e2, e3, e4, e5, e6]

def c6A : Entry :=
  { firstName := .str "John", lastName := .str "Doe",
    segment := .str "Friday Time Trials", group := .str "Time Trials" }

def c6B : Entry :=
  { firstName := .str "John", lastName := .str "Doe",
    segment := .str "Saturday Instructing", group := .str "Instructing" }

def c6C : Entry :=
  { firstName := .str "Jane", lastName := .str "Smith",
    segment := .str "Friday Time Trials", group := .str "Time Trials" }

def c6M1 : DriversMap := (processEntries [c6A, c6B, c6C]).toOption.getD []

def c6M2 : DriversMap := (processEntries [c6B, c6A, c6C]).toOption.getD []

theorem C6_flags_and_days_order_independent_witness :
    ([c6A, c6B, c6C].filter (fun e => entryKey e == "john|doe")).Perm
      ([c6B, c6A, c6C].filter (fun e => entryKey e == "john|doe")) ∧
    [c6A, c6B, c6C].filter (fun e => !(entryKey e == "john|doe")) =
      [c6B, c6A, c6C].filter (fun e => !(entryKey e == "john|doe")) ∧
    processEntries [c6A, c6B, c6C] = .ok c6M1 ∧
    processEntries [c6B, c6A, c6C] = .ok c6M2 ∧
    (dictGet c6M1 "john|doe").map (fun d => (d.is_tt, d.is_instructor, d.is_advanced_hpde,
      d.days_tt, d.days_instructor, d.days_advanced)) =
    (dictGet c6M2 "john|doe").map (fun d => (d.is_tt, d.is_instructor, d.is_advanced_hpde,
      d.days_tt, d.days_instructor, d.days_advanced)) :=
  ⟨by decide, rfl, rfl, rfl,
    C6_flags_and_days_order_independent [c6A, c6B, c6C] [c6B, c6A, c6C] "john|doe"
      c6M1 c6M2 (by decide) rfl rfl rfl⟩

/-! ### Lookup-building lemmas -/

theorem dict_fold_char {α β : Type} (l : List α) (q : α → Bool) (keyOf : α → String)
    (val : α → β) (k : String) :
    ∀ m₀ : List (String × β),
    dictGet (l.foldl (fun m a => if q a then dictSet m (keyOf a) (val a) else m) m₀) k =
      (l.filter (fun a => q a && (keyOf a == k))).foldl
        (fun _ a => some (val a)) (dictGet m₀ k) := by
  induction l with
  | nil => intro m₀; rfl
  | cons a t ih =>
    intro m₀
    rw [List.foldl_cons, ih]
    cases hpa : (q a && (keyOf a == k)) with
    | true =>
      have hq : q a = true := by
        have h' := hpa
        simp only [Bool.and_eq_true] at h'
        exact h'.1
      have hk : keyOf a = k := by
        have h' := hpa
        simp only [Bool.and_eq_true, beq_iff_eq] at h'
        exact h'.2
      have e1 : (if q a = true then dictSet m₀ (keyOf a) (val a) else m₀) =
          dictSet m₀ k (val a) := by
        rw [hk]
        simp [hq]
      have e2 : List.filter (fun a => q a && (keyOf a == k)) (a :: t) =
          a :: List.filter (fun a => q a && (keyOf a == k)) t := by
        simp [List.filter_cons, hpa]
      rw [e1, e2, List.foldl_cons, dictGet_dictSet_self]
    | false =>
      have e2 : List.filter (fun a => q a && (keyOf a == k)) (a :: t) =
          List.filter (fun a => q a && (keyOf a == k)) t := by
        simp [List.filter_cons, hpa]
      rw [e2]
      cases hq : q a with
      | false => simp
      | true =>
        have hk : keyOf a ≠ k := by
          intro hh
          rw [hq, hh] at hpa
          simp at hpa
        simp [dictGet_dictSet_ne _ _ _ _ hk]

theorem dict_fold_last {α β : Type} (l : List α) (q : α → Bool) (keyOf : α → String)
    (val : α → β) (k : String) :
    dictGet (l.foldl (fun m a => if q a then dictSet m (keyOf a) (val a) else m) []) k =
      (match (l.filter (fun a => q a && (keyOf a == k))).getLast? with
        | some a => some (val a)
        | none => none) := by
  rw [dict_fold_char, foldl_overwrite]
  have hbase : dictGet ([] : List (String × β)) k = none := rfl
  rw [hbase]

/-- C10: the attendee lookup is built with dict-overwrite semantics, so when
several attendee rows share an identity key the lookup holds the last such
row in input order, and enrichment copies email, memberId and status from
exactly that row onto the matching aggregated participant. -/
theorem C10_attendee_lookup_last_wins (atts : List Attendee) (k : String)
    (hk : (k == "" || k == "|") = false) :
    dictGet (_build_attendee_lookup atts) k =
      (atts.filter (fun a => _get_driver_key a.firstName a.lastName == k)).getLast? ∧
    (∀ (m : DriversMap) (tireL : List (String × String)) (d : Driver) (att : Attendee),
      dictGet m k = some d →
      dictGet (_build_attendee_lookup atts) k = some att →
      ∃ d', dictGet (_enrich_drivers_with_metadata m (_build_attendee_lookup atts) tireL) k =
          some d' ∧
        d'.email = att.email.getD "" ∧ d'.memberId = att.memberId.getD "" ∧
        d'.status = att.status.getD "") := by
  have h1 : (k == "") = false := by
    cases hbeq : (k == "") with
    | false => rfl
    | true =>
      rw [hbeq] at hk
      simp at hk
  have h2 : (k == "|") = false := by
    cases hbeq : (k == "|") with
    | false => rfl
    | true =>
      rw [hbeq] at hk
      simp at hk
  constructor
  · have hfold : _build_attendee_lookup atts =
        atts.foldl (fun m a =>
          if !(_get_driver_key a.firstName a.lastName == "") &&
              !(_get_driver_key a.firstName a.lastName == "|") then
            dictSet m (_get_driver_key a.firstName a.lastName) a
          else m) [] := rfl
    rw [hfold, dict_fold_last]
    have hfc : atts.filter (fun a =>
          (!(_get_driver_key a.firstName a.lastName == "") &&
            !(_get_driver_key a.firstName a.lastName == "|")) &&
          (_get_driver_key a.firstName a.lastName == k)) =
        atts.filter (fun a => _get_driver_key a.firstName a.lastName == k) := by
      apply List.filter_congr
      intro a _
      cases hbeq : (_get_driver_key a.firstName a.lastName == k) with
      | false => simp [hbeq]
      | true =>
        have hkeq : _get_driver_key a.firstName a.lastName = k := beq_iff_eq.mp hbeq
        simp [hbeq, hkeq, h1, h2]
    rw [hfc]
    cases (atts.filter (fun a => _get_driver_key a.firstName a.lastName == k)).getLast? <;>
      rfl
  · intro m tireL d att hm hatt
    refine ⟨enrichOne (_build_attendee_lookup atts) tireL k d, ?_, ?_, ?_, ?_⟩
    · unfold _enrich_drivers_with_metadata
      rw [dictGet_map (fun kk dd => enrichOne (_build_attendee_lookup atts) tireL kk dd) m k,
        hm]
      rfl
    · simp only [enrichOne, hatt]
      cases hT : dictGet tireL k <;> simp [hT]
    · simp only [enrichOne, hatt]
      cases hT : dictGet tireL k <;> simp [hT]
    · simp only [enrichOne, hatt]
      cases hT : dictGet tireL k <;> simp [hT]

def c10Att1 : Attendee :=
  { firstName := .str "John", lastName := .str "Doe",
    email := .str "old@example.com", memberId := .str "M1", status := .str "Pending" }

def c10Att2 : Attendee :=
  { firstName := .str "john", lastName := .str " DOE ",
    email := .str "new@example.com", memberId := .str "M2", status := .str "Confirmed" }

theorem C10_attendee_lookup_last_wins_witness :
    ((("john|doe" : String) == "" || ("john|doe" : String) == "|") = false) ∧
    dictGet (_build_attendee_lookup [c10Att1, c10Att2]) "john|doe" =
      ([c10Att1, c10Att2].filter
        (fun a => _get_driver_key a.firstName a.lastName == "john|doe")).getLast? ∧
    dictGet (_build_attendee_lookup [c10Att1, c10Att2]) "john|doe" = some c10Att2 :=
  ⟨by decide,
    (C10_attendee_lookup_last_wins [c10Att1, c10Att2] "john|doe" (by decide)).1,
    by decide⟩

/-- Two assignment rows with blank names: their group is classified
time-trials and their tire brand is truthy, and both derive the same identity
key. -/
def c5Asg1 : Assignment :=
  { firstName := .str "", lastName := .str "",
    group := .str "Time Trials", tireBrand := .str "Hoosier" }

def c5Asg2 : Assignment :=
  { firstName := .str " ", lastName := .str "",
    group := .str "Saturday Time Trials", tireBrand := .str "Toyo" }

/-- C5, counterexample to the claim as stated: both rows qualify (classified
time-trials, non-empty tireBrand) and share the identity key "|", yet the
built lookup holds no entry for that key at all — the code additionally
requires the key to differ from "|", which the claim does not mention. -/
theorem C5_counterexample_blank_identity :
    _is_time_trials (c5Asg1.group.getD "") = true ∧
    pyTruthy (c5Asg1.tireBrand.getD "") = true ∧
    _is_time_trials (c5Asg2.group.getD "") = true ∧
    pyTruthy (c5Asg2.tireBrand.getD "") = true ∧
    _get_driver_key c5Asg1.firstName c5Asg1.lastName = "|" ∧
    _get_driver_key c5Asg2.firstName c5Asg2.lastName = "|" ∧
    _build_tire_lookup [c5Asg1, c5Asg2] = [] ∧
    ¬ dictGet (_build_tire_lookup [c5Asg1, c5Asg2]) "|" =
      some (pyOrEmpty (c5Asg2.tireBrand.getD "")) := by
  refine ⟨rfl, rfl, rfl, rfl, rfl, rfl, rfl, ?_⟩
  decide

/-- C5 as amended: for every identity key other than the blank-name key "|",
the tire lookup holds exactly the tire brand of the last assignment row in
input order whose key is that identity, whose group is classified
time-trials, and whose tire brand is truthy (and no entry otherwise);
participants with no matching key come out of enrichment with an empty tire
field; and enrichment never adds or removes a participant key. -/
theorem C5_tire_lookup_amended (asgs : List Assignment) (k : String)
    (hk : (k == "" || k == "|") = false) :
    (dictGet (_build_tire_lookup asgs) k =
      match (asgs.filter (fun a => (_get_driver_key a.firstName a.lastName == k) &&
          _is_time_trials (a.group.getD "") && pyTruthy (a.tireBrand.getD ""))).getLast? with
        | some a => some (pyOrEmpty (a.tireBrand.getD ""))
        | none => none) ∧
    (∀ (l : List Entry) (m : DriversMap) (attL : List (String × Attendee)) (d : Driver),
      processEntries l = .ok m →
      dictGet (_build_tire_lookup asgs) k = none →
      dictGet m k = some d →
      ∃ d', dictGet (_enrich_drivers_with_metadata m attL (_build_tire_lookup asgs)) k =
          some d' ∧ d'.tireBrand = "") ∧
    (∀ (m : DriversMap) (attL : List (String × Attendee)),
      (_enrich_drivers_with_metadata m attL (_build_tire_lookup asgs)).map Prod.fst =
        m.map Prod.fst) := by
  have h1 : (k == "") = false := by
    cases hbeq : (k == "") with
    | false => rfl
    | true =>
      rw [hbeq] at hk
      simp at hk
  have h2 : (k == "|") = false := by
    cases hbeq : (k == "|") with
    | false => rfl
    | true =>
      rw [hbeq] at hk
      simp at hk
  refine ⟨?_, ?_, ?_⟩
  · have hfold : _build_tire_lookup asgs =
        asgs.foldl (fun m a =>
          if !(_get_driver_key a.firstName a.lastName == "") &&
              !(_get_driver_key a.firstName a.lastName == "|") &&
              _is_time_trials (a.group.getD "") && pyTruthy (a.tireBrand.getD "") then
            dictSet m (_get_driver_key a.firstName a.lastName)
              (pyOrEmpty (a.tireBrand.getD ""))
          else m) [] := rfl
    rw [hfold, dict_fold_last]
    have hfc : asgs.filter (fun a =>
          (!(_get_driver_key a.firstName a.lastName == "") &&
            !(_get_driver_key a.firstName a.lastName == "|") &&
            _is_time_trials (a.group.getD "") && pyTruthy (a.tireBrand.getD "")) &&
          (_get_driver_key a.firstName a.lastName == k)) =
        asgs.filter (fun a => (_get_driver_key a.firstName a.lastName == k) &&
          _is_time_trials (a.group.getD "") && pyTruthy (a.tireBrand.getD "")) := by
      apply List.filter_congr
      intro a _
      cases hbeq : (_get_driver_key a.firstName a.lastName == k) with
      | false => simp [hbeq]
      | true =>
        have hkeq : _get_driver_key a.firstName a.lastName = k := beq_iff_eq.mp hbeq
        cases htt : _is_time_trials (a.group.getD "") <;>
          cases htr : pyTruthy (a.tireBrand.getD "") <;>
          simp [hbeq, hkeq, h1, h2, htt, htr]
    rw [hfc]
    cases (asgs.filter (fun a => (_get_driver_key a.firstName a.lastName == k) &&
        _is_time_trials (a.group.getD "") && pyTruthy (a.tireBrand.getD ""))).getLast? <;> rfl
  · intro l m attL d hproc hnone hd
    refine ⟨enrichOne attL (_build_tire_lookup asgs) k d, ?_, ?_⟩
    · unfold _enrich_drivers_with_metadata
      rw [dictGet_map (fun kk dd => enrichOne attL (_build_tire_lookup asgs) kk dd) m k, hd]
      rfl
    · have hagg : d.tireBrand = lastFieldValue k tireView.fE l :=
        field_final tireView l m k d hproc hd
      have hempty : lastFieldValue k tireView.fE l = "" := by
        unfold lastFieldValue
        simp [tireView, pyTruthy, PyField.get]
      have henr : (enrichOne attL (_build_tire_lookup asgs) k d).tireBrand = d.tireBrand := by
        simp only [enrichOne, hnone]
        cases hA : dictGet attL k <;> simp [hA]
      rw [henr, hagg, hempty]
  · intro m attL
    unfold _enrich_drivers_with_metadata
    rw [List.map_map]
    rfl

def c5wAsg1 : Assignment :=
  { firstName := .str "John", lastName := .str "Doe",
    group := .str "Time Trials - Sport 1", tireBrand := .str "Hoosier" }

def c5wAsg2 : Assignment :=
  { firstName := .str "John", lastName := .str "Doe",
    group := .str "Time Trials - Sport 1", tireBrand := .str "Toyo" }

theorem C5_tire_lookup_amended_witness :
    ((("john|doe" : String) == "" || ("john|doe" : String) == "|") = false) ∧
    (dictGet (_build_tire_lookup [c5wAsg1, c5wAsg2]) "john|doe" =
      match ([c5wAsg1, c5wAsg2].filter
          (fun a => (_get_driver_key a.firstName a.lastName == "john|doe") &&
            _is_time_trials (a.group.getD "") && pyTruthy (a.tireBrand.getD ""))).getLast? with
        | some a => some (pyOrEmpty (a.tireBrand.getD ""))
        | none => none) ∧
    dictGet (_build_tire_lookup [c5wAsg1, c5wAsg2]) "john|doe" = some "Toyo" :=
  ⟨by decide,
    (C5_tire_lookup_amended [c5wAsg1, c5wAsg2] "john|doe" (by decide)).1,
    by decide⟩

/-- C4: the assembled report consists of exactly the aggregated participants
whose time-trials flag is set (enriched and formatted), its rows are sorted
ascending by the case-insensitive (lastName, firstName) pair, and the
returned count is the number of emitted rows. -/
theorem C4_report_scope_sort_count (entrylist : List Entry) (atts : List Attendee)
    (asgs : List Assignment) (drivers : DriversMap) (rows : List Row) (n : Nat)
    (hagg : processEntries entrylist = .ok drivers)
    (hrep : generate_tt_report entrylist atts asgs = .ok (rows, n)) :
    n = rows.length ∧
    List.Pairwise (fun r₁ r₂ => rowLe r₁ r₂ = true) rows ∧
    rows.Perm ((_enrich_drivers_with_metadata (drivers.filter (fun kd => kd.2.is_tt))
      (_build_attendee_lookup atts) (_build_tire_lookup asgs)).map
        (fun kd => _write_driver_row kd.2)) ∧
    (∀ r ∈ rows, ∃ kd ∈ drivers, kd.2.is_tt = true ∧
      r = _write_driver_row
        (enrichOne (_build_attendee_lookup atts) (_build_tire_lookup asgs) kd.1 kd.2)) ∧
    (∀ kd ∈ drivers, kd.2.is_tt = true →
      _write_driver_row
        (enrichOne (_build_attendee_lookup atts) (_build_tire_lookup asgs) kd.1 kd.2) ∈
        rows) := by
  unfold generate_tt_report at hrep
  rw [hagg] at hrep
  dsimp only at hrep
  simp only [Except.ok.injEq, Prod.mk.injEq] at hrep
  obtain ⟨hrows, hn⟩ := hrep
  subst hrows
  subst hn
  refine ⟨?_, ?_, ?_, ?_, ?_⟩
  · rw [List.length_map]
  · exact List.Pairwise.map _ (fun a b h => h)
      (List.sorted_insertionSort DriverLe _)
  · have hp := (List.perm_insertionSort DriverLe
      ((_enrich_drivers_with_metadata (drivers.filter (fun kd => kd.2.is_tt))
        (_build_attendee_lookup atts) (_build_tire_lookup asgs)).map Prod.snd)).map
      _write_driver_row
    rw [List.map_map] at hp
    exact hp
  · intro r hr
    obtain ⟨d, hdS, rfl⟩ := List.mem_map.mp hr
    have hdE : d ∈ (_enrich_drivers_with_metadata (drivers.filter (fun kd => kd.2.is_tt))
        (_build_attendee_lookup atts) (_build_tire_lookup asgs)).map Prod.snd :=
      (List.perm_insertionSort DriverLe _).mem_iff.mp hdS
    obtain ⟨kd, hkdE, rfl⟩ := List.mem_map.mp hdE
    unfold _enrich_drivers_with_metadata at hkdE
    obtain ⟨kd₀, hkd₀, rfl⟩ := List.mem_map.mp hkdE
    obtain ⟨hmem, htt⟩ := List.mem_filter.mp hkd₀
    exact ⟨kd₀, hmem, htt, rfl⟩
  · intro kd hkd htt
    have h1 : kd ∈ drivers.filter (fun kd => kd.2.is_tt) :=
      List.mem_filter.mpr ⟨hkd, htt⟩
    have h2 : (kd.1, enrichOne (_build_attendee_lookup atts) (_build_tire_lookup asgs)
        kd.1 kd.2) ∈ _enrich_drivers_with_metadata (drivers.filter (fun kd => kd.2.is_tt))
        (_build_attendee_lookup atts) (_build_tire_lookup asgs) := by
      unfold _enrich_drivers_with_metadata
      exact List.mem_map.mpr ⟨kd, h1, rfl⟩
    have h3 : enrichOne (_build_attendee_lookup atts) (_build_tire_lookup asgs) kd.1 kd.2 ∈
        (_enrich_drivers_with_metadata (drivers.filter (fun kd => kd.2.is_tt))
          (_build_attendee_lookup atts) (_build_tire_lookup asgs)).map Prod.snd :=
      List.mem_map.mpr ⟨_, h2, rfl⟩
    have h4 := (List.perm_insertionSort DriverLe _).mem_iff.mpr h3
    exact List.mem_map.mpr ⟨_, h4, rfl⟩

def c4Entries : List Entry :=
  [{ firstName := .str "Jane", lastName := .str "Smith",
     segment := .str "Saturday Time Trials", group := .str "Time Trials - Max 2",
     «class» := .str "Max 2" },
   { firstName := .str "John", lastName := .str "Doe",
     segment := .str "Saturday Time Trials", group := .str "Time Trials - Sport 1",
     «class» := .str "Sport 1" },
   { firstName := .str "Bob", lastName := .str "Jones",
     segment := .str "Saturday Instructing", group := .str "Instructing" },
   { firstName := .str "Worker", lastName := .str "Only",
     segment := .str "Saturday Workers", group := .str "Workers" }]

def c4Atts : List Attendee :=
  [{ firstName := .str "John", lastName := .str "Doe",
     email := .str "john@example.com", memberId := .str "M001",
     status := .str "Confirmed" }]

def c4Asgs : List Assignment :=
  [{ firstName := .str "John", lastName := .str "Doe",
     group := .str "Time Trials - Sport 1", tireBrand := .str "Hoosier" }]

def c4Drivers : DriversMap := (processEntries c4Entries).toOption.getD []

def c4Rep : List Row × Nat :=
  (generate_tt_report c4Entries c4Atts c4Asgs).toOption.getD ([], 0)

theorem C4_report_scope_sort_count_witness :
    processEntries c4Entries = .ok c4Drivers ∧
    generate_tt_report c4Entries c4Atts c4Asgs = .ok (c4Rep.1, c4Rep.2) ∧
    c4Rep.2 = c4Rep.1.length ∧
    List.Pairwise (fun r₁ r₂ => rowLe r₁ r₂ = true) c4Rep.1 ∧
    c4Rep.1.length = 2 ∧
    c4Rep.1.map Row.lastName = ["Doe", "Smith"] ∧
    c4Rep.1.map Row.tire = ["Hoosier", ""] :=
  ⟨rfl, rfl,
    (C4_report_scope_sort_count c4Entries c4Atts c4Asgs c4Drivers c4Rep.1 c4Rep.2
      rfl rfl).1,
    (C4_report_scope_sort_count c4Entries c4Atts c4Asgs c4Drivers c4Rep.1 c4Rep.2
      rfl rfl).2.1,
    by decide, by decide, by decide⟩
